import Mathlib

/-
Verification of the caption-extraction pipeline of the Youtubevideosummarizer
repository against its specification.

The embedding is a shallow one, translated from the TypeScript source:
  * `src/supabase/functions/server/caption-extractor.tsx` — the four
    extraction strategies and the orchestrator `extractCaptions`;
  * the Hono server file (unnamed in the snapshot) — `extractVideoId`.

Modelling conventions, stated once here:
  * Strings are modelled as Lean `String` (list of characters); the JS string
    methods used by the source (`replace` with literal patterns, `trim`,
    `split(/\s+/)`, `includes`, `toLowerCase`, `match`/`matchAll` with the
    concrete regexes appearing in the source) are implemented character by
    character below, each with a comment naming the JS operation it models.
    JS `\s` and `\b` are modelled on ASCII, which covers every character the
    source's own patterns and data use.
  * Network I/O, the dynamic `npm:youtube-transcript` import and `JSON.parse`
    are external effects; they are modelled by an explicit environment
    (`Env`) supplying, for each request the code can make, either a response
    body, a non-OK HTTP status, or a thrown exception (`fault`).  A thrown
    exception is caught by the source's `try`/`catch` blocks, whose
    control flow is translated faithfully, so every strategy is a total
    function into `Option CaptionResult`.
  * The float comparison `firstPersonRatio > 0.02` is modelled exactly over
    the rationals as `50 * count > totalWords`.
-/

/-! ## JS string primitives (ASCII model) -/

/-- JS `\s` on ASCII: the whitespace characters recognised by `/\s/`. -/
def isJsWs (c : Char) : Bool :=
  c = ' ' || c = '\t' || c = '\n' || c = '\r' || c = '\x0b' || c = '\x0c'

/-- `pat` is a prefix of `s` (character lists). -/
def startsWithPat : List Char → List Char → Bool
  | [], _ => true
  | _ :: _, [] => false
  | p :: ps, c :: cs => p = c && startsWithPat ps cs

/-- JS `s.includes(pat)` on character lists. -/
def containsSub (pat : List Char) : List Char → Bool
  | [] => startsWithPat pat []
  | c :: rest => startsWithPat pat (c :: rest) || containsSub pat rest

/-- Remainder of `s` after the first occurrence of `pat`, if any. -/
def afterFirst (pat : List Char) : List Char → Option (List Char)
  | [] => if pat.isEmpty then some [] else none
  | c :: rest =>
    if startsWithPat pat (c :: rest) then some (List.drop pat.length (c :: rest))
    else afterFirst pat rest

/-- One fuel step of JS `s.replace(/pat/g, rep)` for a literal pattern:
replace every non-overlapping occurrence, scanning left to right. -/
def replaceAllFuel (pat rep : List Char) : Nat → List Char → List Char
  | 0, s => s
  | _ + 1, [] => []
  | fuel + 1, c :: rest =>
    if startsWithPat pat (c :: rest) then
      rep ++ replaceAllFuel pat rep fuel (List.drop pat.length (c :: rest))
    else c :: replaceAllFuel pat rep fuel rest

/-- JS `s.replace(/pat/g, rep)` for a literal (non-empty) pattern. -/
def replaceAll (pat rep s : List Char) : List Char :=
  replaceAllFuel pat rep s.length s

/-- Drop JS whitespace from the front of a character list. -/
def dropWsLead : List Char → List Char
  | [] => []
  | c :: rest => if isJsWs c then dropWsLead rest else c :: rest

/-- JS `s.trim()`: drop whitespace from both ends. -/
def jsTrimList (l : List Char) : List Char :=
  ((dropWsLead ((dropWsLead l).reverse)).reverse)

/-- JS `s.replace(/\s+/g, ' ')`: each maximal whitespace run becomes one
space.  The flag records whether the previous character was whitespace. -/
def collapseWsAux (prevWs : Bool) : List Char → List Char
  | [] => []
  | c :: rest =>
    if isJsWs c then
      if prevWs then collapseWsAux true rest else ' ' :: collapseWsAux true rest
    else c :: collapseWsAux false rest

/-- JS `s.replace(/\n/g, ' ')`. -/
def replaceNl (l : List Char) : List Char :=
  l.map fun c => if c = '\n' then ' ' else c

/-- Number of maximal runs of JS whitespace in a character list; the flag
records whether we are inside a run. -/
def countWsRunsAux (inRun : Bool) : List Char → Nat
  | [] => 0
  | c :: rest =>
    if isJsWs c then (if inRun then 0 else 1) + countWsRunsAux true rest
    else countWsRunsAux false rest

/-- JS `text.split(/\s+/).length`: a split at `k` separator matches yields
`k + 1` pieces (`/\s+/` never matches the empty string), so the length is
the number of maximal whitespace runs plus one. -/
def totalWords (text : String) : Nat :=
  countWsRunsAux false text.data + 1

/-- JS `c.toLowerCase()` on ASCII. -/
def jsCharLower (c : Char) : Char :=
  if 'A' ≤ c ∧ c ≤ 'Z' then Char.ofNat (c.toNat + 32) else c

/-- JS `s.toLowerCase()` on ASCII. -/
def jsLower (s : String) : String :=
  ⟨s.data.map jsCharLower⟩

/-- JS word character, the `\w` class: `[A-Za-z0-9_]`. -/
def isWordChar (c : Char) : Bool :=
  c.isAlphanum || c = '_'

/-- Maximal runs of word characters, used to model `\b`-delimited matching:
a match of `/\b(w)\b/` for an alphanumeric `w` is exactly a maximal
word-character run equal to `w`. -/
def wordRunsAux (cur : List Char) : List Char → List (List Char)
  | [] => if cur.isEmpty then [] else [cur.reverse]
  | c :: rest =>
    if isWordChar c then wordRunsAux (c :: cur) rest
    else if cur.isEmpty then wordRunsAux [] rest
    else cur.reverse :: wordRunsAux [] rest

/-- The maximal word-character runs of a string. -/
def wordRuns (s : String) : List (List Char) :=
  wordRunsAux [] s.data

/-! ## Caption markup decoding

The source extracts cues with `captionContent.matchAll(/<text[^>]*>(.*?)<\/text>/gs)`
and then runs a per-cue entity/tag cleanup.  `[^>]*>` consumes up to the first
`>` after the literal `<text`; the lazy group captures up to the first
`</text>`; scanning resumes after the full match. -/

/-- Skip `[^>]*>` : drop characters up to and including the first `>`. -/
def skipToGt : List Char → Option (List Char)
  | [] => none
  | c :: rest => if c = '>' then some rest else skipToGt rest

/-- Lazily capture up to the first `</text>`, returning the capture and the
remainder after the closing tag. -/
def captureToClose : List Char → Option (List Char × List Char)
  | [] => none
  | c :: rest =>
    if startsWithPat "</text>".data (c :: rest) then
      some ([], List.drop 7 (c :: rest))
    else
      match captureToClose rest with
      | none => none
      | some (inner, rem) => (some (c :: inner, rem))

/-- All cue captures of `/<text[^>]*>(.*?)<\/text>/gs`, fuelled; each match
consumes at least six characters, so fuel `s.length` suffices. -/
def extractCuesFuel : Nat → List Char → List (List Char)
  | 0, _ => []
  | fuel + 1, s =>
    match afterFirst "<text".data s with
    | none => []
    | some afterTag =>
      match skipToGt afterTag with
      | none => []
      | some afterGt =>
        match captureToClose afterGt with
        | none => []
        | some (inner, rem) => inner :: extractCuesFuel fuel rem

/-- The cue inner texts of a caption payload. -/
def extractCues (s : String) : List (List Char) :=
  extractCuesFuel s.length s.data

/-- Chars after a `<` that complete a `/<[^>]+>/` tag: at least one non-`>`
character, then `>`; returns the remainder after the `>`. -/
def tagCloseGo : List Char → Option (List Char)
  | [] => none
  | c :: rest => if c = '>' then some rest else tagCloseGo rest

/-- As `tagCloseGo`, but the first character must not itself be `>`
(`[^>]+` needs at least one character). -/
def tagClose : List Char → Option (List Char)
  | [] => none
  | c :: rest => if c = '>' then none else tagCloseGo rest

/-- JS `s.replace(/<[^>]+>/g, '')`: strip every tag-shaped substring. -/
def stripTagsFuel : Nat → List Char → List Char
  | 0, s => s
  | _ + 1, [] => []
  | fuel + 1, c :: rest =>
    if c = '<' then
      match tagClose rest with
      | some rem => stripTagsFuel fuel rem
      | none => c :: stripTagsFuel fuel rest
    else c :: stripTagsFuel fuel rest

/-- Strip `/<[^>]+>/g` tags from a character list. -/
def stripTags (l : List Char) : List Char :=
  stripTagsFuel l.length l

/-- The entity decode of the primary strategy's markup branch
(`caption-extractor.tsx` lines 170–175): replace, in order, `&amp;`→`&`,
`&lt;`→`<`, `&gt;`→`>`, `&quot;`→`"`, `&#39;`→`'`. -/
def decodeEntitiesApi (l : List Char) : List Char :=
  replaceAll "&#39;".data "'".data
    (replaceAll "&quot;".data "\"".data
      (replaceAll "&gt;".data ">".data
        (replaceAll "&lt;".data "<".data
          (replaceAll "&amp;".data "&".data l))))

/-- The entity decode of `parseCaptionTracks` (lines 361–366) and of
`extractWithLanguageFallback` (lines 439–444), translated exactly as
written: the first three replacements are `/&/g`→`'&'`, `/</g`→`'<'` and
`/>/g`→`'>'`, which replace a character by itself; only `&quot;` and
`&#39;` are actually decoded. -/
def decodeEntitiesScrape (l : List Char) : List Char :=
  replaceAll "&#39;".data "'".data
    (replaceAll "&quot;".data "\"".data
      (replaceAll ">".data ">".data
        (replaceAll "<".data "<".data
          (replaceAll "&".data "&".data l))))

/-- Per-cue cleanup of the primary strategy's markup branch: entity decode,
strip remaining tags, `\n`→space, trim. -/
def decodeCueApi (l : List Char) : List Char :=
  jsTrimList (replaceNl (stripTags (decodeEntitiesApi l)))

/-- Per-cue cleanup of the page-scrape and language-fallback strategies:
same pipeline but with their (partly no-op) entity decode. -/
def decodeCueScrape (l : List Char) : List Char :=
  jsTrimList (replaceNl (stripTags (decodeEntitiesScrape l)))

/-- `.filter(text => text.length > 0).join(' ').replace(/\s+/g, ' ').trim()`
applied to decoded cues — the tail of every markup decode pipeline. -/
def joinCues (cues : List (List Char)) : String :=
  ⟨jsTrimList (collapseWsAux false
    (List.intercalate [' '] (cues.filter fun t => t.length > 0)))⟩

/-- Full markup transcript of the primary strategy: extract cues, clean each
with `decodeCueApi`, join. -/
def xmlTranscriptApi (payload : String) : String :=
  joinCues ((extractCues payload).map decodeCueApi)

/-- Full markup transcript of the page-scrape and language-fallback
strategies: extract cues, clean each with `decodeCueScrape`, join. -/
def xmlTranscriptScrape (payload : String) : String :=
  joinCues ((extractCues payload).map decodeCueScrape)

/-! ## Transcript quality analysis (`analyzeTranscriptQuality`) -/

/-- The advisory quality record returned by `analyzeTranscriptQuality`. -/
structure Quality where
  likelySpoken : Bool
  confidence : String
  reason : String
deriving Repr, DecidableEq

/-- The fixed conversational markers of the source (line 24), verbatim —
including `'I '`, whose capital letter can never occur in the lowercased
haystack. -/
def conversationalWords : List String :=
  ["I ", "you ", "we ", "hello", "hi ", "hey ", "thanks", "okay", "right",
   "so ", "um ", "uh "]

/-- `conversationalWords.some(word => text.toLowerCase().includes(word))`. -/
def hasConversational (text : String) : Bool :=
  conversationalWords.any fun w => containsSub w.data (jsLower text).data

/-- `text.toLowerCase().match(/\b(i|we|my|our|me|us)\b/g)?.length || 0`:
the number of maximal word-character runs of the lowercased text equal to
one of the six pronouns (for purely alphabetic alternatives, every `\b...\b`
match is exactly such a run). -/
def firstPersonCount (text : String) : Nat :=
  ((wordRuns (jsLower text)).filter fun r =>
    r == "i".data || r == "we".data || r == "my".data || r == "our".data ||
    r == "me".data || r == "us".data).length

/-- `analyzeTranscriptQuality` (lines 12–47).  The float test
`firstPersonPronouns / totalWords > 0.02` is modelled exactly over ℚ as
`50 * firstPersonPronouns > totalWords` (`totalWords ≥ 1` always). -/
def analyzeTranscriptQuality (text : String) : Quality :=
  if 50 * firstPersonCount text > totalWords text || hasConversational text then
    { likelySpoken := true, confidence := "HIGH",
      reason := "Contains conversational language and personal pronouns" }
  else
    { likelySpoken := true, confidence := "MEDIUM",
      reason := "Appears to be caption text" }

/-! ## Track selection of the primary strategy -/

/-- One item of `data.items`: the `snippet` fields the source reads. -/
structure TrackSnippet where
  language : String
  trackKind : String
  name : String
deriving Repr, DecidableEq

/-- The track-selection chain of `extractWithYouTubeDataAPI` (lines 78–104):
English standard, else English auto (`'asr'`), else any standard, else any
auto, else the first item. -/
def selectTrack (items : List TrackSnippet) : Option TrackSnippet :=
  match items.find? fun t => t.language == "en" && t.trackKind == "standard" with
  | some t => some t
  | none =>
    match items.find? fun t => t.language == "en" && t.trackKind == "asr" with
    | some t => some t
    | none =>
      match items.find? fun t => t.trackKind == "standard" with
      | some t => some t
      | none =>
        match items.find? fun t => t.trackKind == "asr" with
        | some t => some t
        | none => items.head?

/-! ## Video identifier parsing (`extractVideoId`, server file lines 78–89)

The first pattern is
`/(?:youtube\.com\/watch\?v=|youtu\.be\/|youtube\.com\/embed\/)([^&\n?#]+)/`:
an unanchored scan; at each position the three marker literals are tried in
order (they are mutually prefix-free), and on a marker hit the group takes
the maximal run of non-delimiter characters, which must be non-empty.  The
second pattern is `/^([a-zA-Z0-9_-]{11})$/`. -/

/-- The delimiter class `[&\n?#]` ending a captured id. -/
def isDelimC (c : Char) : Bool :=
  c = '&' || c = '\n' || c = '?' || c = '#'

/-- Maximal run of non-delimiter characters. -/
def takeCapture : List Char → List Char
  | [] => []
  | c :: rest => if isDelimC c then [] else c :: takeCapture rest

/-- Try one marker alternative at the current position: the marker must be a
prefix, and the following capture must be non-empty. -/
def tryMarker (m s : List Char) : Option (List Char) :=
  if startsWithPat m s then
    let cap := takeCapture (List.drop m.length s)
    if cap.isEmpty then none else some cap
  else none

/-- The three URL marker literals, in the source's alternation order. -/
def urlMarkers : List (List Char) :=
  ["youtube.com/watch?v=".data, "youtu.be/".data, "youtube.com/embed/".data]

/-- Alternation of the three markers at a fixed position. -/
def matchMarkerAt (s : List Char) : Option (List Char) :=
  (tryMarker "youtube.com/watch?v=".data s).or
    ((tryMarker "youtu.be/".data s).or (tryMarker "youtube.com/embed/".data s))

/-- Unanchored scan: try every position left to right. -/
def scanUrl : List Char → Option (List Char)
  | [] => none
  | c :: rest =>
    match matchMarkerAt (c :: rest) with
    | some cap => some cap
    | none => scanUrl rest

/-- The bare-token class `[a-zA-Z0-9_-]`. -/
def isIdChar (c : Char) : Bool :=
  c.isAlphanum || c = '_' || c = '-'

/-- `extractVideoId`: first URL pattern, then the anchored 11-character
bare-token pattern, else `null`. -/
def extractVideoId (url : String) : Option String :=
  match scanUrl url.data with
  | some cap => some ⟨cap⟩
  | none =>
    if url.data.length == 11 && url.data.all isIdChar then some url else none

/-! ## Data model and external-effect environment -/

/-- The `CaptionResult` interface of `caption-extractor.tsx`. -/
structure CaptionResult where
  transcript : String
  source : String
  language : String
  method : String
deriving Repr, DecidableEq

/-- Outcome of one `fetch` whose body is read with `.text()`: a non-OK
response, an OK response with its body, or a thrown exception. -/
inductive TextResponse where
  | httpError (status : Nat)
  | body (s : String)
  | fault (msg : String)
deriving Repr

/-- Outcome of the caption-track listing request of the primary strategy,
with the JSON transport abstracted: `items l` is the decoded `data.items`
(`[]` also models a missing field), `httpError` a non-OK response, `fault`
a thrown exception. -/
inductive ListResponse where
  | httpError (status : Nat) (errorText : String)
  | items (l : List TrackSnippet)
  | fault (msg : String)
deriving Repr

/-- One `seg` of a JSON3 event; `utf8` may be absent (`seg.utf8 || ''`). -/
structure Json3Seg where
  utf8 : Option String
deriving Repr, DecidableEq

/-- One JSON3 `event`; `segs` may be absent (`event.segs` falsy check). -/
structure Json3Event where
  segs : Option (List Json3Seg)
deriving Repr, DecidableEq

/-- One cue returned by the delegated `youtube-transcript` library. -/
structure YtCue where
  text : String
deriving Repr, DecidableEq

/-- One entry of the page-embedded `captionTracks` array; every field the
source reads is optional there. -/
structure PageTrack where
  languageCode : Option String
  baseUrl : Option String
  simpleName : Option String
deriving Repr, DecidableEq

/-- The external world of one `extractCaptions` call: every network
response, thrown exception and `JSON.parse` outcome the code can observe.
A `fault`/`Except.error`/`none` value models a thrown exception, which the
source catches. -/
structure Env where
  /-- Primary strategy's track-listing request (video id and API key are
  fixed for the call). -/
  captionsList : ListResponse
  /-- `https://www.youtube.com/api/timedtext?v=...&lang=L&fmt=F`, by
  language and format — used by the primary and language-fallback
  strategies. -/
  timedtext : String → String → TextResponse
  /-- `JSON.parse` of a JSON3 body followed by the `.events` access; `none`
  models a parse exception. -/
  parseJson3 : String → Option (List Json3Event)
  /-- `YoutubeTranscript.fetchTranscript(videoId, { lang: 'en' })`;
  `Except.error` models a rejection (also covers a failing dynamic
  import). -/
  ytFetchEn : Except String (List YtCue)
  /-- `YoutubeTranscript.fetchTranscript(videoId)` — the retry without a
  language constraint. -/
  ytFetchAny : Except String (List YtCue)
  /-- The public watch-page fetch of the page-scrape strategy. -/
  videoPage : TextResponse
  /-- `JSON.parse` of a matched `captionTracks` fragment; `none` models a
  parse exception. -/
  parseTracksJson : String → Option (List PageTrack)
  /-- Fetch of a page track's `baseUrl`. -/
  fetchUrl : String → TextResponse

/-! ## Strategy A: `extractWithYouTubeDataAPI` (lines 50–217)

The `QA` versions thread the quality-analysis function explicitly and
return, besides the result, the log lines built from the assessment — the
only place the source uses it. -/

/-- Decode of the JSON3 (structured-segment) format, lines 145–162. -/
def json3Transcript (events : List Json3Event) : String :=
  ⟨jsTrimList (collapseWsAux false (replaceNl (List.intercalate [' ']
    (((events.filter fun e => e.segs.isSome).map fun e =>
        jsTrimList (List.flatten ((e.segs.getD []).map fun seg =>
          (seg.utf8.getD "").data))).filter
      fun t => t.length > 0))))⟩

/-- The wire formats tried in order, line 117. -/
def formatsApi : List String := ["srv3", "json3", "srv1"]

/-- The per-format download loop of lines 123–208: skip a format on a
non-OK response, an exception, a body shorter than 100 characters or a
parse failure; accept the first decoded transcript longer than 50
characters. -/
def tryFormats (qa : String → Quality) (env : Env) (language trackKind : String) :
    List String → Option CaptionResult × List String
  | [] => (none, [])
  | fmt :: rest =>
    match env.timedtext language fmt with
    | .httpError _ => tryFormats qa env language trackKind rest
    | .fault _ => tryFormats qa env language trackKind rest
    | .body content =>
      if content.length < 100 then tryFormats qa env language trackKind rest
      else
        let decoded : Option String :=
          if fmt == "json3" then (env.parseJson3 content).map json3Transcript
          else some (xmlTranscriptApi content)
        match decoded with
        | none => tryFormats qa env language trackKind rest
        | some transcript =>
          if transcript.length > 50 then
            let quality := qa transcript
            (some { transcript := transcript, source := "captions",
                    language := language,
                    method := "youtube-data-api-" ++ trackKind },
             ["Confidence: " ++ quality.confidence,
              "Reason: " ++ quality.reason])
          else tryFormats qa env language trackKind rest

/-- `extractWithYouTubeDataAPI`, with the quality function explicit. -/
def extractWithYouTubeDataAPIQA (qa : String → Quality) (env : Env)
    (videoId apiKey : String) : Option CaptionResult × List String :=
  match env.captionsList with
  | .httpError _ _ => (none, [])
  | .fault _ => (none, [])
  | .items items =>
    match items.head? with
    | none => (none, [])
    | some first =>
      let track := (selectTrack items).getD first
      tryFormats qa env track.language track.trackKind formatsApi

/-- `extractWithYouTubeDataAPI` as the source runs it. -/
def extractWithYouTubeDataAPI (env : Env) (videoId apiKey : String) :
    Option CaptionResult :=
  (extractWithYouTubeDataAPIQA analyzeTranscriptQuality env videoId apiKey).1

/-! ## Strategy B: `extractWithYoutubeTranscript` (lines 220–270) -/

/-- `.map(item => item.text).join(' ').replace(/\s+/g, ' ').trim()`. -/
def ytJoin (cues : List YtCue) : String :=
  ⟨jsTrimList (collapseWsAux false
    (List.intercalate [' '] (cues.map fun c => c.text.data)))⟩

/-- `extractWithYoutubeTranscript`, with the quality function explicit:
fetch preferring English, retry without a language constraint only when the
English fetch throws; reject an empty cue list or a transcript shorter than
50 characters; tag `language = 'en'` unconditionally. -/
def extractWithYoutubeTranscriptQA (qa : String → Quality) (env : Env)
    (videoId : String) : Option CaptionResult × List String :=
  let fetched : Except String (List YtCue) :=
    match env.ytFetchEn with
    | .ok d => .ok d
    | .error _ => env.ytFetchAny
  match fetched with
  | .error _ => (none, [])
  | .ok data =>
    if data.isEmpty then (none, [])
    else
      let transcript := ytJoin data
      if transcript.length < 50 then (none, [])
      else
        let quality := qa transcript
        (some { transcript := transcript, source := "captions",
                language := "en", method := "youtube-transcript-package" },
         ["Confidence: " ++ quality.confidence])

/-- `extractWithYoutubeTranscript` as the source runs it. -/
def extractWithYoutubeTranscript (env : Env) (videoId : String) :
    Option CaptionResult :=
  (extractWithYoutubeTranscriptQA analyzeTranscriptQuality env videoId).1

/-! ## Strategy C: `extractWithTimedTextAPI` + `parseCaptionTracks`
(lines 273–396)

The page body is searched with `/"captionTracks":\s*(\[.*?\])/` (no `s`
flag: the bracketed capture may not cross a newline) and, failing that,
with `/"captions".*?"playerCaptionsTracklistRenderer".*?"captionTracks":\s*(\[.*?\])/s`.
For both, backtracking over the lazy parts amounts to: take the first
occurrence of each anchor literal in turn, and for the final group try the
successive occurrences of `"captionTracks":` until one is followed by
`\s*[...]`. -/

/-- Capture `.*?\]` after an opening `[`: up to the first `]`, which under
the newline-free variant (`allowNl = false`) must be reached without
crossing `\n`.  Returns the capture (without brackets) and the remainder. -/
def captureToBracket (allowNl : Bool) : List Char → Option (List Char × List Char)
  | [] => none
  | c :: rest =>
    if c = ']' then some ([], rest)
    else if !allowNl && c = '\n' then none
    else
      match captureToBracket allowNl rest with
      | none => none
      | some (inner, rem) => some (c :: inner, rem)

/-- Try `\s*(\[.*?\])` at the position just after one `"captionTracks":`
literal; the capture group includes the brackets. -/
def tryTracksAt (allowNl : Bool) (s : List Char) : Option (List Char) :=
  match dropWsLead s with
  | '[' :: rest =>
    match captureToBracket allowNl rest with
    | some (inner, _) => some ('[' :: (inner ++ [']']))
    | none => none
  | _ => none

/-- Scan the successive occurrences of `"captionTracks":` until one is
followed by a bracketed capture. -/
def scanTracksFuel (allowNl : Bool) : Nat → List Char → Option (List Char)
  | 0, _ => none
  | fuel + 1, s =>
    match afterFirst "\"captionTracks\":".data s with
    | none => none
    | some rest =>
      match tryTracksAt allowNl rest with
      | some frag => some frag
      | none => scanTracksFuel allowNl fuel rest

/-- The primary page pattern (`allowNl = false`) or the tail of the
alternate pattern (`allowNl = true`). -/
def scanCaptionTracksRaw (allowNl : Bool) (s : List Char) : Option (List Char) :=
  scanTracksFuel allowNl s.length s

/-- The alternate page pattern: first `"captions"`, then the first
`"playerCaptionsTracklistRenderer"` after it, then the bracket scan. -/
def scanAltTracks (s : List Char) : Option (List Char) :=
  match afterFirst "\"captions\"".data s with
  | none => none
  | some r1 =>
    match afterFirst "\"playerCaptionsTracklistRenderer\"".data r1 with
    | none => none
    | some r2 => scanCaptionTracksRaw true r2

/-- `parseCaptionTracks` (lines 318–396): parse the matched fragment,
select the track (`languageCode === 'en'`, else a `languageCode` starting
with `en`, else the first entry), require a `baseUrl`, fetch it, extract
and decode cues with the scrape decoder, require at least one cue and a
transcript of at least 50 characters. -/
def parseCaptionTracks (env : Env) (tracksJson : String) : Option CaptionResult :=
  match env.parseTracksJson tracksJson with
  | none => none
  | some tracks =>
    let found : Option PageTrack :=
      (tracks.find? fun t => t.languageCode == some "en").or
        ((tracks.find? fun t =>
            match t.languageCode with
            | some lc => startsWithPat "en".data lc.data
            | none => false).or
          tracks.head?)
    match found with
    | none => none
    | some track =>
      match track.baseUrl with
      | none => none
      | some url =>
        if url == "" then none
        else
          match env.fetchUrl url with
          | .httpError _ => none
          | .fault _ => none
          | .body captionXml =>
            let cues := extractCues captionXml
            if cues.isEmpty then none
            else
              let transcript := joinCues (cues.map decodeCueScrape)
              if transcript.length < 50 then none
              else
                some { transcript := transcript, source := "captions",
                       language :=
                         (match track.languageCode with
                          | some lc => if lc == "" then "unknown" else lc
                          | none => "unknown"),
                       method := "timedtext-api" }

/-- `extractWithTimedTextAPI` (lines 273–316). -/
def extractWithTimedTextAPI (env : Env) (videoId : String) :
    Option CaptionResult :=
  match env.videoPage with
  | .httpError _ => none
  | .fault _ => none
  | .body html =>
    match scanCaptionTracksRaw false html.data with
    | some frag => parseCaptionTracks env ⟨frag⟩
    | none =>
      match scanAltTracks html.data with
      | some frag => parseCaptionTracks env ⟨frag⟩
      | none => none

/-! ## Strategy D: `extractWithLanguageFallback` (lines 399–482) -/

/-- The fixed language codes of lines 403–408. -/
def fallbackLangs : List String := ["en", "a.en", "en-US", "en-GB"]

/-- The per-language loop of lines 410–473: skip a language on a non-OK
response, an exception, a body shorter than 100 characters or containing
`'error'`, no cue, or a transcript shorter than 50 characters. -/
def langLoop (env : Env) : List String → Option CaptionResult
  | [] => none
  | lang :: rest =>
    match env.timedtext lang "srv3" with
    | .httpError _ => langLoop env rest
    | .fault _ => langLoop env rest
    | .body xml =>
      if xml.length < 100 || containsSub "error".data xml.data then
        langLoop env rest
      else
        let cues := extractCues xml
        if cues.isEmpty then langLoop env rest
        else
          let transcript := joinCues (cues.map decodeCueScrape)
          if transcript.length < 50 then langLoop env rest
          else
            some { transcript := transcript, source := "captions",
                   language := lang, method := "language-fallback" }

/-- `extractWithLanguageFallback`. -/
def extractWithLanguageFallback (env : Env) (videoId : String) :
    Option CaptionResult :=
  langLoop env fallbackLangs

/-! ## Orchestrator: `extractCaptions` (lines 485–544) -/

/-- The guarded primary attempt of the orchestrator: `apiKey` is the
optional parameter `apiKey?: string`; `if (apiKey)` skips the primary
strategy for both an absent and an empty credential. -/
def primaryStep (qa : String → Quality) (env : Env) (videoId : String)
    (apiKey : Option String) : Option CaptionResult × List String :=
  match apiKey with
  | some k =>
    if k = "" then (none, [])
    else extractWithYouTubeDataAPIQA qa env videoId k
  | none => (none, [])

/-- `extractCaptions` with the quality function explicit, returning the
result and the accumulated quality log lines: the strategy chain of lines
491–544 — primary (guarded by the credential), then B, then C, then D,
returning on the first success. -/
def extractCaptionsQA (qa : String → Quality) (env : Env) (videoId : String)
    (apiKey : Option String) : Option CaptionResult × List String :=
  match (primaryStep qa env videoId apiKey).1 with
  | some r => (some r, (primaryStep qa env videoId apiKey).2)
  | none =>
    match (extractWithYoutubeTranscriptQA qa env videoId).1 with
    | some r =>
      (some r,
       (primaryStep qa env videoId apiKey).2 ++
         (extractWithYoutubeTranscriptQA qa env videoId).2)
    | none =>
      match extractWithTimedTextAPI env videoId with
      | some r =>
        (some r,
         (primaryStep qa env videoId apiKey).2 ++
           (extractWithYoutubeTranscriptQA qa env videoId).2)
      | none =>
        match extractWithLanguageFallback env videoId with
        | some r =>
          (some r,
           (primaryStep qa env videoId apiKey).2 ++
             (extractWithYoutubeTranscriptQA qa env videoId).2)
        | none =>
          (none,
           (primaryStep qa env videoId apiKey).2 ++
             (extractWithYoutubeTranscriptQA qa env videoId).2)

/-- `extractCaptions` as the source runs it. -/
def extractCaptions (env : Env) (videoId : String) (apiKey : Option String) :
    Option CaptionResult :=
  (extractCaptionsQA analyzeTranscriptQuality env videoId apiKey).1

/-- Invocation-instrumented orchestrator: same sequencing as
`extractCaptions`, recording the name of each strategy it invokes, in
order. -/
def fallbackTrace (env : Env) (videoId : String) (invoked : List String) :
    Option CaptionResult × List String :=
  match extractWithYoutubeTranscript env videoId with
  | some r => (some r, invoked ++ ["youtube-transcript-package"])
  | none =>
    match extractWithTimedTextAPI env videoId with
    | some r => (some r, invoked ++ ["youtube-transcript-package", "timedtext-api"])
    | none =>
      match extractWithLanguageFallback env videoId with
      | some r =>
        (some r,
         invoked ++ ["youtube-transcript-package", "timedtext-api", "language-fallback"])
      | none =>
        (none,
         invoked ++ ["youtube-transcript-package", "timedtext-api", "language-fallback"])

/-- The orchestrator with its invocation trace. -/
def extractCaptionsTrace (env : Env) (videoId : String)
    (apiKey : Option String) : Option CaptionResult × List String :=
  match apiKey with
  | some k =>
    if k = "" then fallbackTrace env videoId []
    else
      match extractWithYouTubeDataAPI env videoId k with
      | some r => (some r, ["youtube-data-api"])
      | none => fallbackTrace env videoId ["youtube-data-api"]
  | none => fallbackTrace env videoId []

/-! ## Concrete environments used as witnesses and counterexamples -/

/-- An environment in which every external interaction throws: every
strategy is exhausted. -/
def envFault : Env where
  captionsList := .fault "network down"
  timedtext := fun _ _ => .fault "network down"
  parseJson3 := fun _ => none
  ytFetchEn := .error "network down"
  ytFetchAny := .error "network down"
  videoPage := .fault "network down"
  parseTracksJson := fun _ => none
  fetchUrl := fun _ => .fault "network down"

/-- A transcript of exactly 50 characters. -/
def fiftyChars : String := ⟨List.replicate 50 'a'⟩

/-- An environment in which only the delegated-library strategy succeeds,
with a single cue of exactly 50 characters. -/
def envFifty : Env := { envFault with ytFetchEn := .ok [⟨fiftyChars⟩] }

/-- A well-formed markup payload: one cue of 80 characters, raw length 111
(above the 100-character raw threshold). -/
def xmlEighty : String :=
  "<text start=\"0\" dur=\"1\">" ++ ⟨List.replicate 80 'a'⟩ ++ "</text>"

/-- An environment in which the primary strategy succeeds: one English
standard track, and the `srv3` timedtext request returns `xmlEighty`. -/
def envPrimary : Env := { envFault with
  captionsList := .items [⟨"en", "standard", "English"⟩]
  timedtext := fun lang fmt =>
    if lang == "en" && fmt == "srv3" then .body xmlEighty
    else .fault "network down" }

/-- An environment exercising strategy B's retry path: the
English-constrained fetch throws and the unconstrained retry returns
French cues; the source still tags the result `language = 'en'`. -/
def envRetry : Env := { envFault with
  ytFetchAny :=
    .ok [⟨"bonjour tout le monde ceci est une transcription francaise ok"⟩] }

/-- The result the primary strategy produces in `envPrimary`. -/
def resPrimary : CaptionResult :=
  { transcript := ⟨List.replicate 80 'a'⟩, source := "captions",
    language := "en", method := "youtube-data-api-standard" }

/-- The result strategy B produces in `envRetry`. -/
def resRetry : CaptionResult :=
  { transcript := "bonjour tout le monde ceci est une transcription francaise ok",
    source := "captions", language := "en",
    method := "youtube-transcript-package" }

/-! ## Spec-side characterisation of the identifier parser

Independent reformulation of the URL pattern, used to state when
`extractVideoId`'s first pattern can match at all: some suffix of the input
starts with a marker followed by at least one non-delimiter character. -/

/-- The first character exists and is not a delimiter. -/
def headNonDelim : List Char → Bool
  | [] => false
  | c :: _ => !isDelimC c

/-- Some marker alternative matches at the head of `t` with a non-empty
capture. -/
def markerHitB (t : List Char) : Bool :=
  urlMarkers.any fun m => startsWithPat m t && headNonDelim (List.drop m.length t)

/-- All suffixes of a character list, longest first. -/
def allTails : List Char → List (List Char)
  | [] => [[]]
  | c :: rest => (c :: rest) :: allTails rest

/-- The URL pattern of `extractVideoId` can match somewhere in `s`. -/
def hasUrlShape (s : String) : Bool :=
  (allTails s.data).any markerHitB

/-- The bare-token pattern `/^([a-zA-Z0-9_-]{11})$/` matches `s`. -/
def bareShape (s : String) : Bool :=
  s.data.length == 11 && s.data.all isIdChar

/-! ## Helper lemmas -/

theorem optOr_eq_none {α : Type} {a b : Option α} :
    a.or b = none ↔ a = none ∧ b = none := by
  cases a <;> simp [Option.or]

theorem tryFormats_fst_indep (qa qa' : String → Quality) (env : Env)
    (language trackKind : String) (fmts : List String) :
    (tryFormats qa env language trackKind fmts).1 =
      (tryFormats qa' env language trackKind fmts).1 := by
  induction fmts with
  | nil => rfl
  | cons fmt rest ih =>
    simp only [tryFormats]
    split
    · exact ih
    · exact ih
    · split
      · exact ih
      · split
        · exact ih
        · split
          · rfl
          · exact ih

theorem tryFormats_fst_some (qa : String → Quality) (env : Env)
    (language trackKind : String) (fmts : List String) (r : CaptionResult)
    (h : (tryFormats qa env language trackKind fmts).1 = some r) :
    50 < r.transcript.length ∧ r.source = "captions" ∧
      r.language = language ∧ r.method = "youtube-data-api-" ++ trackKind := by
  induction fmts with
  | nil => simp [tryFormats] at h
  | cons fmt rest ih =>
    simp only [tryFormats] at h
    split at h
    · exact ih h
    · exact ih h
    · split at h
      · exact ih h
      · split at h
        · exact ih h
        · rename_i transcript h50
          split at h
          · rename_i hgt
            simp only at h
            cases h
            exact ⟨hgt, rfl, rfl, rfl⟩
          · exact ih h

theorem apiQA_fst_indep (qa qa' : String → Quality) (env : Env)
    (videoId apiKey : String) :
    (extractWithYouTubeDataAPIQA qa env videoId apiKey).1 =
      (extractWithYouTubeDataAPIQA qa' env videoId apiKey).1 := by
  simp only [extractWithYouTubeDataAPIQA]
  split
  · rfl
  · rfl
  · split
    · rfl
    · exact tryFormats_fst_indep qa qa' env _ _ _

theorem apiQA_fst_some (qa : String → Quality) (env : Env)
    (videoId apiKey : String) (r : CaptionResult)
    (h : (extractWithYouTubeDataAPIQA qa env videoId apiKey).1 = some r) :
    50 < r.transcript.length ∧ r.source = "captions" := by
  simp only [extractWithYouTubeDataAPIQA] at h
  split at h
  · simp at h
  · simp at h
  · split at h
    · simp at h
    · exact ⟨(tryFormats_fst_some qa env _ _ _ r h).1,
             (tryFormats_fst_some qa env _ _ _ r h).2.1⟩

theorem ytQA_fst_indep (qa qa' : String → Quality) (env : Env)
    (videoId : String) :
    (extractWithYoutubeTranscriptQA qa env videoId).1 =
      (extractWithYoutubeTranscriptQA qa' env videoId).1 := by
  simp only [extractWithYoutubeTranscriptQA]
  split
  · rfl
  · split
    · rfl
    · split
      · rfl
      · rfl

theorem ytQA_fst_some (qa : String → Quality) (env : Env) (videoId : String)
    (r : CaptionResult)
    (h : (extractWithYoutubeTranscriptQA qa env videoId).1 = some r) :
    50 ≤ r.transcript.length ∧ r.source = "captions" ∧
      r.language = "en" ∧ r.method = "youtube-transcript-package" := by
  simp only [extractWithYoutubeTranscriptQA] at h
  split at h
  · simp at h
  · split at h
    · simp at h
    · split at h
      · simp at h
      · rename_i hlen
        simp only at h
        cases h
        exact ⟨Nat.le_of_not_lt hlen, rfl, rfl, rfl⟩

theorem parseCaptionTracks_some (env : Env) (tracksJson : String)
    (r : CaptionResult) (h : parseCaptionTracks env tracksJson = some r) :
    50 ≤ r.transcript.length ∧ r.source = "captions" ∧
      r.method = "timedtext-api" := by
  simp only [parseCaptionTracks] at h
  split at h
  · simp at h
  · split at h
    · simp at h
    · split at h
      · simp at h
      · split at h
        · simp at h
        · split at h
          · simp at h
          · simp at h
          · split at h
            · simp at h
            · split at h
              · simp at h
              · rename_i hlen
                cases h
                exact ⟨Nat.le_of_not_lt hlen, rfl, rfl⟩

theorem timedText_some (env : Env) (videoId : String) (r : CaptionResult)
    (h : extractWithTimedTextAPI env videoId = some r) :
    50 ≤ r.transcript.length ∧ r.source = "captions" ∧
      r.method = "timedtext-api" := by
  simp only [extractWithTimedTextAPI] at h
  split at h
  · simp at h
  · simp at h
  · split at h
    · exact parseCaptionTracks_some env _ r h
    · split at h
      · exact parseCaptionTracks_some env _ r h
      · simp at h

theorem langLoop_some (env : Env) (langs : List String) (r : CaptionResult)
    (h : langLoop env langs = some r) :
    50 ≤ r.transcript.length ∧ r.source = "captions" ∧
      r.method = "language-fallback" := by
  induction langs with
  | nil => simp [langLoop] at h
  | cons lang rest ih =>
    simp only [langLoop] at h
    split at h
    · exact ih h
    · exact ih h
    · split at h
      · exact ih h
      · split at h
        · exact ih h
        · split at h
          · exact ih h
          · rename_i hlen
            cases h
            exact ⟨Nat.le_of_not_lt hlen, rfl, rfl⟩

theorem primaryStep_fst_indep (qa qa' : String → Quality) (env : Env)
    (videoId : String) (apiKey : Option String) :
    (primaryStep qa env videoId apiKey).1 =
      (primaryStep qa' env videoId apiKey).1 := by
  cases apiKey with
  | none => rfl
  | some k =>
    simp only [primaryStep]
    by_cases hk : k = ""
    · simp [hk]
    · simp only [if_neg hk]
      exact apiQA_fst_indep qa qa' env videoId k

theorem primaryStep_fst_some (qa : String → Quality) (env : Env)
    (videoId : String) (apiKey : Option String) (r : CaptionResult)
    (h : (primaryStep qa env videoId apiKey).1 = some r) :
    50 < r.transcript.length ∧ r.source = "captions" := by
  cases apiKey with
  | none => simp [primaryStep] at h
  | some k =>
    simp only [primaryStep] at h
    split at h
    · simp at h
    · exact apiQA_fst_some qa env videoId k r h

theorem extractCaptionsQA_fst_cases (qa : String → Quality) (env : Env)
    (videoId : String) (apiKey : Option String) (r : CaptionResult)
    (h : (extractCaptionsQA qa env videoId apiKey).1 = some r) :
    (primaryStep qa env videoId apiKey).1 = some r ∨
      (extractWithYoutubeTranscriptQA qa env videoId).1 = some r ∨
      extractWithTimedTextAPI env videoId = some r ∨
      extractWithLanguageFallback env videoId = some r := by
  simp only [extractCaptionsQA] at h
  split at h
  · rename_i rA hA
    simp only at h
    cases h
    exact Or.inl hA
  · split at h
    · rename_i rB hB
      simp only at h
      cases h
      exact Or.inr (Or.inl hB)
    · split at h
      · rename_i rC hC
        simp only at h
        cases h
        exact Or.inr (Or.inr (Or.inl hC))
      · split at h
        · rename_i rD hD
          simp only at h
          cases h
          exact Or.inr (Or.inr (Or.inr hD))
        · simp at h

theorem extractCaptionsQA_fst_none (qa : String → Quality) (env : Env)
    (videoId : String) (apiKey : Option String)
    (hA : (primaryStep qa env videoId apiKey).1 = none)
    (hB : (extractWithYoutubeTranscriptQA qa env videoId).1 = none)
    (hC : extractWithTimedTextAPI env videoId = none)
    (hD : extractWithLanguageFallback env videoId = none) :
    (extractCaptionsQA qa env videoId apiKey).1 = none := by
  simp only [extractCaptionsQA, hA, hB, hC, hD]

theorem takeCapture_nonDelim (l : List Char) :
    (takeCapture l).all (fun c => !isDelimC c) = true := by
  induction l with
  | nil => rfl
  | cons c rest ih =>
    simp only [takeCapture]
    split
    · rfl
    · rename_i hc
      simp only [List.all_cons, Bool.and_eq_true, ih, and_true]
      simpa using hc

theorem takeCapture_empty_iff (l : List Char) :
    takeCapture l = [] ↔ headNonDelim l = false := by
  cases l with
  | nil => simp [takeCapture, headNonDelim]
  | cons c rest =>
    simp only [takeCapture, headNonDelim]
    by_cases hc : isDelimC c = true
    · simp [hc]
    · simp [hc]

theorem tryMarker_none_iff (m s : List Char) :
    tryMarker m s = none ↔
      (startsWithPat m s && headNonDelim (List.drop m.length s)) = false := by
  simp only [tryMarker]
  by_cases hs : startsWithPat m s = true
  · simp only [hs, if_true, Bool.true_and]
    by_cases hc : (takeCapture (List.drop m.length s)).isEmpty = true
    · simp only [hc, if_true]
      rw [List.isEmpty_iff] at hc
      simp [(takeCapture_empty_iff _).mp hc]
    · simp only [hc, if_false]  -- hmm Bool if
      constructor
      · intro habs; exact absurd habs (by simp [hc])
      · intro hnd
        exfalso
        apply hc
        rw [List.isEmpty_iff]
        exact (takeCapture_empty_iff _).mpr hnd
  · simp [hs]

theorem tryMarker_some_props (m s cap : List Char)
    (h : tryMarker m s = some cap) :
    cap ≠ [] ∧ cap.all (fun c => !isDelimC c) = true := by
  simp only [tryMarker] at h
  split at h
  · split at h
    · simp at h
    · rename_i hne
      cases h
      refine ⟨?_, takeCapture_nonDelim _⟩
      intro habs
      rw [← List.isEmpty_iff] at habs
      exact hne habs
  · simp at h

theorem matchMarkerAt_none_iff (s : List Char) :
    matchMarkerAt s = none ↔ markerHitB s = false := by
  simp only [matchMarkerAt, markerHitB, urlMarkers, List.any_cons, List.any_nil,
    optOr_eq_none, tryMarker_none_iff, Bool.or_eq_false_iff]
  tauto

theorem matchMarkerAt_some_props (s cap : List Char)
    (h : matchMarkerAt s = some cap) :
    cap ≠ [] ∧ cap.all (fun c => !isDelimC c) = true := by
  simp only [matchMarkerAt] at h
  cases h1 : tryMarker "youtube.com/watch?v=".data s with
  | some c1 =>
    rw [h1] at h
    simp only [Option.or] at h
    cases h
    exact tryMarker_some_props _ s cap h1
  | none =>
    rw [h1] at h
    simp only [Option.or] at h
    cases h2 : tryMarker "youtu.be/".data s with
    | some c2 =>
      rw [h2] at h
      simp only [Option.or] at h
      cases h
      exact tryMarker_some_props _ s cap h2
    | none =>
      rw [h2] at h
      simp only [Option.or] at h
      exact tryMarker_some_props _ s cap h

theorem scanUrl_none_iff (s : List Char) :
    scanUrl s = none ↔ (allTails s).any markerHitB = false := by
  induction s with
  | nil =>
    simp only [scanUrl, allTails, List.any_cons, List.any_nil]
    constructor
    · intro _; decide
    · intro _; trivial
  | cons c rest ih =>
    simp only [scanUrl, allTails, List.any_cons, Bool.or_eq_false_iff]
    cases hm : matchMarkerAt (c :: rest) with
    | some cap =>
      constructor
      · intro habs; exact absurd habs (by simp)
      · rintro ⟨hb, _⟩
        exact absurd ((matchMarkerAt_none_iff _).mpr hb) (by simp [hm])
    | none =>
      constructor
      · intro hrest
        exact ⟨(matchMarkerAt_none_iff _).mp hm, (ih.mp hrest)⟩
      · rintro ⟨_, hb⟩
        exact ih.mpr hb

theorem scanUrl_some_props (s cap : List Char) (h : scanUrl s = some cap) :
    cap ≠ [] ∧ cap.all (fun c => !isDelimC c) = true := by
  induction s with
  | nil => simp [scanUrl] at h
  | cons c rest ih =>
    simp only [scanUrl] at h
    cases hm : matchMarkerAt (c :: rest) with
    | some cap2 =>
      rw [hm] at h
      cases h
      exact matchMarkerAt_some_props _ cap hm
    | none =>
      rw [hm] at h
      exact ih h

theorem idChar_not_delim (c : Char) (h : isIdChar c = true) :
    (!isDelimC c) = true := by
  have hd : isDelimC c = false := by
    by_contra hd
    rw [Bool.not_eq_false] at hd
    simp only [isDelimC, Bool.or_eq_true, decide_eq_true_eq] at hd
    rcases hd with ((h1 | h1) | h1) | h1 <;> subst h1 <;>
      exact absurd h (by decide)
  simp [hd]

/-! ## Claim theorems -/

/-- C2: in the primary strategy, for every caption-track list the selected
track follows the priority chain — language `en` and kind `standard`, else
language `en` and kind `asr` (the auto/machine-generated kind), else any
`standard`, else any `asr`, else the first item — first match wins; in
particular `[fr/standard, en/asr]` selects the `en`/`asr` entry, and when
both `en`/`standard` and `en`/`asr` exist, `en`/`standard` wins. -/
theorem selectTrack_priority :
    (∀ items : List TrackSnippet,
      selectTrack items =
        ((items.find? fun t => t.language == "en" && t.trackKind == "standard").or
          ((items.find? fun t => t.language == "en" && t.trackKind == "asr").or
            ((items.find? fun t => t.trackKind == "standard").or
              ((items.find? fun t => t.trackKind == "asr").or
                items.head?))))) ∧
    selectTrack [⟨"fr", "standard", "n1"⟩, ⟨"en", "asr", "n2"⟩] =
      some ⟨"en", "asr", "n2"⟩ ∧
    selectTrack [⟨"fr", "standard", "n1"⟩, ⟨"en", "asr", "n2"⟩,
        ⟨"en", "standard", "n3"⟩] =
      some ⟨"en", "standard", "n3"⟩ := by
  refine ⟨fun items => ?_, by decide, by decide⟩
  simp only [selectTrack]
  cases h1 : items.find? fun t => t.language == "en" && t.trackKind == "standard" with
  | some t => simp [Option.or]
  | none =>
    cases h2 : items.find? fun t => t.language == "en" && t.trackKind == "asr" with
    | some t => simp [Option.or]
    | none =>
      cases h3 : items.find? fun t => t.trackKind == "standard" with
      | some t => simp [Option.or]
      | none =>
        cases h4 : items.find? fun t => t.trackKind == "asr" with
        | some t => simp [Option.or]
        | none => simp [Option.or]

/-- C9: the three canonical inputs — short-host URL, watch URL and bare
token — are all accepted by `extractVideoId` and normalize to the identical
11-character id. -/
theorem extractVideoId_canonical :
    extractVideoId "https://youtu.be/abcDEF12345" = some "abcDEF12345" ∧
      extractVideoId "https://www.youtube.com/watch?v=abcDEF12345" =
        some "abcDEF12345" ∧
      extractVideoId "abcDEF12345" = some "abcDEF12345" ∧
      ("abcDEF12345" : String).length = 11 := by decide

/-- C5 (code bug): the markup decoder shared by the page-scrape and
language-brute-force strategies does not decode the ampersand and
angle-bracket entities — its first three `replace` calls replace `&`, `<`
and `>` by themselves — so an input with encoded entities keeps them
verbatim, while the primary strategy's decoder (the five-entity decode the
spec describes) yields the literal characters. -/
theorem scrape_decode_residual_entities :
    xmlTranscriptScrape "<text start=\"0\">Tom &amp; Jerry &lt;3</text>" =
        "Tom &amp; Jerry &lt;3" ∧
      xmlTranscriptApi "<text start=\"0\">Tom &amp; Jerry &lt;3</text>" =
        "Tom & Jerry <3" ∧
      containsSub "&amp;".data "Tom &amp; Jerry &lt;3".data = true := by decide

/-- C1 counterexample: the claim "the transcript field has length strictly
greater than 50" is false — in `envFifty` strategy B returns a transcript
of exactly 50 characters (its guard rejects only lengths below 50). -/
theorem extractCaptions_strict_threshold_cex :
    ¬ (∀ (env : Env) (videoId : String) (apiKey : Option String)
        (r : CaptionResult),
        extractCaptions env videoId apiKey = some r →
          50 < r.transcript.length ∧ r.source = "captions") := by
  intro hclaim
  have h := (hclaim envFifty "dQw4w9WgXcQ" none
    { transcript := fiftyChars, source := "captions", language := "en",
      method := "youtube-transcript-package" } (by decide)).1
  exact absurd h (by decide)

/-- C6 counterexample: the claim that every successful parse yields an
11-character token is false — the URL pattern captures a run of any
positive length, e.g. a 3-character id from a short-host URL. -/
theorem extractVideoId_eleven_cex :
    extractVideoId "https://youtu.be/abc" = some "abc" ∧
      ("abc" : String).length ≠ 11 := by decide

/-- C1 (amended): whenever `extractCaptions` returns a non-null result, the
transcript has length at least 50 characters (the primary strategy enforces
a strict `> 50`, the three fallback strategies reject only `< 50`) and the
source field equals `"captions"`. -/
theorem extractCaptions_some_props (env : Env) (videoId : String)
    (apiKey : Option String) (r : CaptionResult)
    (h : extractCaptions env videoId apiKey = some r) :
    50 ≤ r.transcript.length ∧ r.source = "captions" := by
  unfold extractCaptions at h
  rcases extractCaptionsQA_fst_cases _ env videoId apiKey r h with hA | hB | hC | hD
  · have hp := primaryStep_fst_some _ env videoId apiKey r hA
    exact ⟨Nat.le_of_lt hp.1, hp.2⟩
  · have hp := ytQA_fst_some _ env videoId r hB
    exact ⟨hp.1, hp.2.1⟩
  · have hp := timedText_some env videoId r hC
    exact ⟨hp.1, hp.2.1⟩
  · have hp := langLoop_some env fallbackLangs r hD
    exact ⟨hp.1, hp.2.1⟩

/-- C1 witness: the amended theorem applied to the concrete run in
`envFifty`, whose returned transcript has exactly 50 characters. -/
theorem extractCaptions_some_props_witness :
    50 ≤ ({ transcript := fiftyChars, source := "captions", language := "en",
            method := "youtube-transcript-package" } : CaptionResult).transcript.length ∧
      ({ transcript := fiftyChars, source := "captions", language := "en",
         method := "youtube-transcript-package" } : CaptionResult).source = "captions" :=
  extractCaptions_some_props envFifty "dQw4w9WgXcQ" none
    { transcript := fiftyChars, source := "captions", language := "en",
      method := "youtube-transcript-package" } (by decide)

/-- C3: when every strategy fails — the primary one for any credential, and
strategies B, C and D — `extractCaptions` returns the explicit `none`
outcome; exceptions cannot escape, since every strategy is modelled as the
source's `try`/`catch` blocks prescribe, a total function into
`Option CaptionResult`. -/
theorem extractCaptions_all_fail_none (env : Env) (videoId : String)
    (apiKey : Option String)
    (hA : ∀ k : String, extractWithYouTubeDataAPI env videoId k = none)
    (hB : extractWithYoutubeTranscript env videoId = none)
    (hC : extractWithTimedTextAPI env videoId = none)
    (hD : extractWithLanguageFallback env videoId = none) :
    extractCaptions env videoId apiKey = none := by
  unfold extractCaptions
  apply extractCaptionsQA_fst_none
  · cases apiKey with
    | none => rfl
    | some k =>
      simp only [primaryStep]
      split
      · rfl
      · exact hA k
  · exact hB
  · exact hC
  · exact hD

/-- C3 witness: in the all-faults environment every strategy fails and the
orchestrator returns `none`, with and without a credential. -/
theorem extractCaptions_all_fail_none_witness :
    extractCaptions envFault "dQw4w9WgXcQ" (some "KEY") = none ∧
      extractCaptions envFault "dQw4w9WgXcQ" none = none :=
  ⟨extractCaptions_all_fail_none envFault "dQw4w9WgXcQ" (some "KEY")
      (fun _ => rfl) rfl rfl rfl,
    extractCaptions_all_fail_none envFault "dQw4w9WgXcQ" none
      (fun _ => rfl) rfl rfl rfl⟩

/-- C4: when a (non-empty) credential is present and the primary strategy
returns a non-null result, `extractCaptions` returns exactly that result,
and the instrumented orchestrator records the primary strategy as the only
one invoked — strategies B, C and D never run. -/
theorem primary_short_circuit (env : Env) (videoId k : String)
    (r : CaptionResult) (hk : k ≠ "")
    (h : extractWithYouTubeDataAPI env videoId k = some r) :
    extractCaptions env videoId (some k) = some r ∧
      extractCaptionsTrace env videoId (some k) =
        (some r, ["youtube-data-api"]) := by
  have hA : (primaryStep analyzeTranscriptQuality env videoId (some k)).1 = some r := by
    simp only [primaryStep, if_neg hk]
    exact h
  constructor
  · unfold extractCaptions extractCaptionsQA
    rw [hA]
  · simp only [extractCaptionsTrace, if_neg hk, h]

/-- C4 witness: the short-circuit theorem at the concrete environment where
the primary strategy succeeds with an 80-character transcript. -/
theorem primary_short_circuit_witness :
    extractCaptions envPrimary "dQw4w9WgXcQ" (some "KEY") = some resPrimary ∧
      extractCaptionsTrace envPrimary "dQw4w9WgXcQ" (some "KEY") =
        (some resPrimary, ["youtube-data-api"]) :=
  primary_short_circuit envPrimary "dQw4w9WgXcQ" "KEY" resPrimary
    (by decide) (by decide)

/-- C7: for every input text, `analyzeTranscriptQuality` reports
`likelySpoken = true`; its confidence is `"HIGH"` exactly when the ratio of
first-person-pronoun occurrences to the `split(/\s+/)` word count exceeds
2% (as rationals: `50 * count > totalWords`) or some fixed conversational
marker occurs in the lowercased text, and `"MEDIUM"` otherwise. -/
theorem analyzeTranscriptQuality_spec (text : String) :
    (analyzeTranscriptQuality text).likelySpoken = true ∧
      ((analyzeTranscriptQuality text).confidence = "HIGH" ↔
        50 * firstPersonCount text > totalWords text ∨
          hasConversational text = true) ∧
      ((analyzeTranscriptQuality text).confidence = "HIGH" ∨
        (analyzeTranscriptQuality text).confidence = "MEDIUM") := by
  unfold analyzeTranscriptQuality
  split
  · rename_i hcond
    simp only [Bool.or_eq_true, decide_eq_true_eq] at hcond
    refine ⟨rfl, ?_, Or.inl rfl⟩
    exact ⟨fun _ => hcond, fun _ => rfl⟩
  · rename_i hcond
    simp only [Bool.or_eq_true, decide_eq_true_eq] at hcond
    push_neg at hcond
    refine ⟨rfl, ?_, Or.inr rfl⟩
    constructor
    · intro habs; exact absurd habs (by decide)
    · intro hp
      rcases hp with hp | hp
      · exact absurd hp (by omega)
      · exact absurd hp (by simp [hcond.2])

/-- C7 witness: the characterisation instantiated at a concrete text on
the HIGH side (pronoun ratio 1/3 with a conversational marker absent from
the check only by case). -/
theorem analyzeTranscriptQuality_spec_witness :
    (analyzeTranscriptQuality "i think therefore").likelySpoken = true ∧
      ((analyzeTranscriptQuality "i think therefore").confidence = "HIGH" ↔
        50 * firstPersonCount "i think therefore" >
            totalWords "i think therefore" ∨
          hasConversational "i think therefore" = true) ∧
      ((analyzeTranscriptQuality "i think therefore").confidence = "HIGH" ∨
        (analyzeTranscriptQuality "i think therefore").confidence = "MEDIUM") :=
  analyzeTranscriptQuality_spec "i think therefore"

/-- C8: the quality assessment never gates extraction — for any two quality
functions (in particular, any two assessments differing in `likelySpoken`,
`confidence` or `reason`), the orchestrator's returned result, with every
field, is identical; only the quality log lines can differ. -/
theorem quality_never_gates (qa₁ qa₂ : String → Quality) (env : Env)
    (videoId : String) (apiKey : Option String) :
    (extractCaptionsQA qa₁ env videoId apiKey).1 =
      (extractCaptionsQA qa₂ env videoId apiKey).1 := by
  simp only [extractCaptionsQA]
  rw [← primaryStep_fst_indep qa₁ qa₂ env videoId apiKey,
      ← ytQA_fst_indep qa₁ qa₂ env videoId]
  split
  · rfl
  · split
    · rfl
    · split
      · rfl
      · split
        · rfl
        · rfl

/-- C10: every successful result of strategy B carries `language = 'en'`
and `method = 'youtube-transcript-package'` — the fields are hardcoded on
the single success path, so they are reported even when the cues came from
the no-language-constraint retry. -/
theorem ytStrategy_reports_en (env : Env) (videoId : String)
    (r : CaptionResult)
    (h : extractWithYoutubeTranscript env videoId = some r) :
    r.language = "en" ∧ r.method = "youtube-transcript-package" := by
  have hp := ytQA_fst_some analyzeTranscriptQuality env videoId r h
  exact ⟨hp.2.2.1, hp.2.2.2⟩

/-- C10 witness: in `envRetry` the English-constrained fetch throws, the
unconstrained retry returns French cues, and the result is still tagged
`language = 'en'`. -/
theorem ytStrategy_reports_en_witness :
    envRetry.ytFetchEn = Except.error "network down" ∧
      resRetry.language = "en" ∧
      resRetry.method = "youtube-transcript-package" :=
  ⟨rfl, ytStrategy_reports_en envRetry "dQw4w9WgXcQ" resRetry (by decide)⟩

/-- C6 (amended): when `extractVideoId` succeeds it returns a non-empty
token free of the delimiter characters `&`, newline, `?`, `#`; the result
is guaranteed to be an 11-character token of the id alphabet only when no
URL shape matches (the bare-token pattern); and it returns `null` exactly
when neither the URL shapes nor the bare 11-character token match. -/
theorem extractVideoId_spec (url : String) :
    (extractVideoId url = none ↔
      hasUrlShape url = false ∧ bareShape url = false) ∧
    (∀ r : String, extractVideoId url = some r →
      0 < r.length ∧ r.data.all (fun c => !isDelimC c) = true) ∧
    (hasUrlShape url = false → ∀ r : String, extractVideoId url = some r →
      r.length = 11 ∧ r.data.all isIdChar = true) := by
  refine ⟨?_, ?_, ?_⟩
  · unfold extractVideoId
    cases hs : scanUrl url.data with
    | some cap =>
      constructor
      · intro habs; exact absurd habs (by simp)
      · rintro ⟨hshape, _⟩
        have h2 := (scanUrl_none_iff url.data).mpr hshape
        rw [hs] at h2
        exact absurd h2 (by simp)
    | none =>
      have hshape : hasUrlShape url = false := (scanUrl_none_iff url.data).mp hs
      show (if (url.data.length == 11 && url.data.all isIdChar) = true
          then some url else none) = none ↔
        hasUrlShape url = false ∧ bareShape url = false
      by_cases hb : (url.data.length == 11 && url.data.all isIdChar) = true
      · rw [if_pos hb]
        constructor
        · intro habs; exact absurd habs (by simp)
        · rintro ⟨_, hbare⟩
          have hfalse : (url.data.length == 11 && url.data.all isIdChar) = false :=
            hbare
          rw [hb] at hfalse
          exact absurd hfalse (by simp)
      · rw [if_neg hb]
        constructor
        · intro _
          refine ⟨hshape, ?_⟩
          show (url.data.length == 11 && url.data.all isIdChar) = false
          simpa using hb
        · intro _; rfl
  · intro r
    unfold extractVideoId
    cases hs : scanUrl url.data with
    | some cap =>
      intro hr
      have hcap := scanUrl_some_props url.data cap hs
      have hr2 : (⟨cap⟩ : String) = r := Option.some.inj hr
      subst hr2
      constructor
      · show 0 < cap.length
        cases cap with
        | nil => exact absurd rfl hcap.1
        | cons a b => simp
      · exact hcap.2
    | none =>
      show (if (url.data.length == 11 && url.data.all isIdChar) = true
          then some url else none) = some r → _
      by_cases hb : (url.data.length == 11 && url.data.all isIdChar) = true
      · rw [if_pos hb]
        intro hr
        have hr2 : url = r := Option.some.inj hr
        subst hr2
        simp only [Bool.and_eq_true, beq_iff_eq] at hb
        constructor
        · show 0 < url.data.length
          omega
        · rw [List.all_eq_true] at hb ⊢
          exact fun c hc => idChar_not_delim c (hb.2 c hc)
      · rw [if_neg hb]
        intro hr
        exact absurd hr (by simp)
  · intro hshape r
    unfold extractVideoId
    have hs : scanUrl url.data = none := (scanUrl_none_iff url.data).mpr hshape
    rw [hs]
    show (if (url.data.length == 11 && url.data.all isIdChar) = true
        then some url else none) = some r → _
    by_cases hb : (url.data.length == 11 && url.data.all isIdChar) = true
    · rw [if_pos hb]
      intro hr
      have hr2 : url = r := Option.some.inj hr
      subst hr2
      simp only [Bool.and_eq_true, beq_iff_eq] at hb
      exact ⟨hb.1, hb.2⟩
    · rw [if_neg hb]
      intro hr
      exact absurd hr (by simp)

/-- C6 witness: the amended theorem instantiated at a short-host URL (URL
shape, non-empty capture) and at the bare canonical token (11-character
guarantee). -/
theorem extractVideoId_spec_witness :
    (0 < ("abcDEF12345" : String).length ∧
      ("abcDEF12345" : String).data.all (fun c => !isDelimC c) = true) ∧
    (("abcDEF12345" : String).length = 11 ∧
      ("abcDEF12345" : String).data.all isIdChar = true) :=
  ⟨(extractVideoId_spec "https://youtu.be/abcDEF12345").2.1 "abcDEF12345"
      (by decide),
    (extractVideoId_spec "abcDEF12345").2.2 (by decide) "abcDEF12345"
      (by decide)⟩
